import Mathlib

/-!
# hash-runner: change-detection engine, shallow embedding

This file embeds the core of the `hash-runner` package (v2.0.1, class
`HashRunner` in `src/index.ts`) in Lean 4 and proves the testable
properties of its specification.

Modelling conventions:

* A JS `Record<string, string>` (a snapshot: relative path → digest) is an
  association list with unique keys in insertion order; `Object.keys` is the
  list of first components, and property access `obj[k]` is `jsGet`, which
  returns `none` for a missing key (JS `undefined`).
* `checkChangesInChunks` launches one `checkChunk` per chunk via
  `Array.from`.  `checkChunk` is an `async function` whose body contains no
  `await`, so on the JS event loop every chunk body runs synchronously, to
  completion, at promise-creation time, in cursor order; the shared
  `AbortController` is therefore a boolean flag threaded through the chunks
  in that order.  The embedding makes this flag explicit.
* The effectful orchestration (`HashRunner.run`) is modelled as a pure
  function from a `RunInput` — the run's environment: CI indicator, `force`
  option, outcome of reading the store file, the freshly computed current
  snapshot, and the outcome of spawning the command — to a `RunResult`
  recording the decision, the ordered trace of observable effects, the
  store content a subsequent load would see, and the run's exit.
-/

namespace HashRunner

/-- A snapshot: mapping from relative file path to hex digest, as a JS
`Record<string, string>` in insertion order. -/
abbrev Snapshot := List (String × String)

/-- JS property access `obj[k]`: the value at key `k`, or `none` for JS
`undefined` when the key is missing. -/
def jsGet (m : Snapshot) (k : String) : Option String :=
  m.lookup k

/-- `Object.keys(obj)`: the keys of the record in insertion order. -/
def keys (m : Snapshot) : List String :=
  m.map Prod.fst

/-- `COMPARISON_CHUNK_SIZE`: the default number of entries per comparison
chunk. -/
def COMPARISON_CHUNK_SIZE : Nat := 100

/-- `Math.ceil(fileKeys.length / chunkSize)` for a positive `chunkSize`:
the number of chunk tasks (`numCursors` in the source). -/
def numCursors (len chunkSize : Nat) : Nat :=
  (len + chunkSize - 1) / chunkSize

/-- The loop of `checkChunk(startIndex, endIndex, signal)`, recursing
structurally on `count`, the number of remaining indices
(`stopIndex - startIndex`): before each key it checks the abort flag and
returns if set; on a mismatch between `currentHashes[file]` and
`previousHashes[file]` it signals abort (returns `true`).  The returned
boolean is the state of the shared abort flag after the chunk ran. -/
def checkChunkGo (fileKeys : List String) (currentHashes previousHashes : Snapshot) :
    Nat → Nat → Bool → Bool
  | 0, _, aborted => aborted
  | count + 1, i, aborted =>
    if aborted then
      aborted
    else
      match fileKeys[i]? with
      | some file =>
        if jsGet currentHashes file ≠ jsGet previousHashes file then
          true
        else
          checkChunkGo fileKeys currentHashes previousHashes count (i + 1) aborted
      | none =>
        checkChunkGo fileKeys currentHashes previousHashes count (i + 1) aborted

/-- `checkChunk(startIndex, endIndex, signal)`: scans the indices
`startIndex ≤ i < stopIndex` of `fileKeys` via `checkChunkGo`. -/
def checkChunk (fileKeys : List String) (currentHashes previousHashes : Snapshot)
    (startIndex stopIndex : Nat) (aborted : Bool) : Bool :=
  checkChunkGo fileKeys currentHashes previousHashes (stopIndex - startIndex) startIndex aborted

/-- `checkChangesInChunks(currentHashes, previousHashes, chunkSize)`:
partitions the keys of `currentHashes` into `numCursors` contiguous chunks
of `chunkSize` keys (the last possibly shorter), runs `checkChunk` on each
— in cursor order, threading the shared abort flag, per the synchronous
execution of the awaitless async chunk bodies — and returns the final
state of the abort flag (`abortController.signal.aborted`). -/
def checkChangesInChunks (currentHashes previousHashes : Snapshot)
    (chunkSize : Nat) : Bool :=
  let fileKeys := keys currentHashes
  let n := numCursors fileKeys.length chunkSize
  (List.range n).foldl
    (fun aborted cursor =>
      checkChunk fileKeys currentHashes previousHashes (cursor * chunkSize)
        (min (cursor * chunkSize + chunkSize) fileKeys.length) aborted)
    false

/-- `runCommand(command, cwd)`: spawns the command; the promise rejects if
the `error` event fires (spawn failure) and otherwise resolves with
`code ?? 0`, where `code` is the `close` event's exit code (`null` when the
process was terminated by a signal).  The spawn outcome is the run's
environment: `.error ()` for a spawn failure, `.ok code` for a close with
the given (possibly `null`) code. -/
def runCommand (spawnOutcome : Except Unit (Option Int)) : Except Unit Int :=
  match spawnOutcome with
  | .error e => .error e
  | .ok code => .ok (code.getD 0)

/-- `readHashFile(hashFilePath)`: tries to read the store file and
`JSON.parse` its content, returning the parsed mapping; any failure
(missing file, unreadable file, unparsable content) is caught and yields
`null`.  The read-and-parse outcome is the run's environment: `.error ()`
when reading or parsing throws, `.ok snapshot` when it produces a
mapping. -/
def readHashFile (fileOutcome : Except Unit Snapshot) : Option Snapshot :=
  match fileOutcome with
  | .error _ => none
  | .ok snapshot => some snapshot

/-- The observable effects of a run, in the order they occur. -/
inductive Event where
  | readStore
  | computeSnapshot
  | execCommand
  | writeStore
deriving DecidableEq, Repr

/-- The environment of one `HashRunner.run()` invocation: everything the
outside world feeds the orchestrator. -/
structure RunInput where
  /-- `CI`: whether `process.env.CI === "true"`. -/
  ci : Bool
  /-- `options.force` from the constructor. -/
  force : Bool
  /-- `config.parallelizeComparisonsChunkSize`; `none` (JS `undefined`)
  selects the default `COMPARISON_CHUNK_SIZE`. -/
  chunkSize : Option Nat
  /-- Outcome of reading and parsing the store file (input to
  `readHashFile`). -/
  storeOutcome : Except Unit Snapshot
  /-- The current snapshot computed by `getHashedFiles`. -/
  current : Snapshot
  /-- Outcome of spawning `config.execOnChange` (input to `runCommand`). -/
  spawnOutcome : Except Unit (Option Int)
deriving Repr

/-- The observable outcome of one `HashRunner.run()` invocation. -/
structure RunResult where
  /-- The change decision: `some b` when the detector ran, `none` on the
  CI bypass where no decision is made. -/
  changed : Option Bool
  /-- Ordered trace of observable effects. -/
  trace : List Event
  /-- The store content a subsequent `readHashFile` would see after the
  run (at parsed-snapshot granularity): the just-written snapshot if the
  run wrote the store, otherwise the unchanged pre-run content. -/
  finalStore : Option Snapshot
  /-- How the run terminates: `.ok code` for `exitProcess(code)` (or the
  plain successful return of the unchanged branch, conventionally `0`),
  `.error ()` for a rejected run (spawn failure). -/
  exit : Except Unit Int
deriving Repr

/-- The change decision of `run`'s non-CI path, short-circuiting left to
right exactly as the source condition
`this.options.force || !previousHashes ||
Object.keys(currentHashes).length !== Object.keys(previousHashes).length ||
await this.checkChangesInChunks(currentHashes, previousHashes,
config.parallelizeComparisonsChunkSize)` — with `previousHashes` the
result of `readHashFile` (JS `!previousHashes` is true exactly for `null`:
an empty record is truthy) and the default `COMPARISON_CHUNK_SIZE`
supplied when the config leaves the chunk size undefined. -/
def hasChangesDecision (inp : RunInput) : Bool :=
  let previousHashes := readHashFile inp.storeOutcome
  inp.force ||
  previousHashes.isNone ||
  match previousHashes with
  | none => true
  | some prev =>
    decide ((keys inp.current).length ≠ (keys prev).length) ||
    checkChangesInChunks inp.current prev (inp.chunkSize.getD COMPARISON_CHUNK_SIZE)

/-- `HashRunner.run()`: CI bypass, else load baseline and current snapshot,
decide `force || !previousHashes || length mismatch || chunked comparison`
(`hasChangesDecision`), and on the changed branch run the command and then
write the store, exiting with the command's code; on the unchanged branch
log and return. -/
def run (inp : RunInput) : RunResult :=
  if inp.ci then
    { changed := none
      trace := [.execCommand]
      finalStore := readHashFile inp.storeOutcome
      exit := runCommand inp.spawnOutcome }
  else
    if hasChangesDecision inp then
      match runCommand inp.spawnOutcome with
      | .error e =>
        { changed := some true
          trace := [.readStore, .computeSnapshot, .execCommand]
          finalStore := readHashFile inp.storeOutcome
          exit := .error e }
      | .ok code =>
        { changed := some true
          trace := [.readStore, .computeSnapshot, .execCommand, .writeStore]
          finalStore := some inp.current
          exit := .ok code }
    else
      { changed := some false
        trace := [.readStore, .computeSnapshot]
        finalStore := readHashFile inp.storeOutcome
        exit := .ok 0 }

/-- A mismatch at index `i` of the key list: the key exists and its digest
in the current snapshot differs from its digest (or absence) in the
previous snapshot. -/
def MismatchAt (fileKeys : List String) (cur prev : Snapshot) (i : Nat) : Prop :=
  ∃ f, fileKeys[i]? = some f ∧ jsGet cur f ≠ jsGet prev f

/-- The chunk loop entered with the abort flag already set returns at once
with the flag still set. -/
theorem checkChunkGo_true (K : List String) (c p : Snapshot) (n i : Nat) :
    checkChunkGo K c p n i true = true := by
  cases n <;> simp [checkChunkGo]

/-- The chunk loop entered with the abort flag clear signals abort exactly
when some index of its range holds a mismatch. -/
theorem checkChunkGo_false_iff (K : List String) (c p : Snapshot) :
    ∀ n s, checkChunkGo K c p n s false = true ↔
      ∃ i, s ≤ i ∧ i < s + n ∧ MismatchAt K c p i := by
  intro n
  induction n with
  | zero =>
    intro s
    simp only [checkChunkGo]
    constructor
    · intro h; exact absurd h (by simp)
    · rintro ⟨i, hsi, hit, -⟩; omega
  | succ n ih =>
    intro s
    simp only [checkChunkGo, Bool.false_eq_true, if_false]
    cases hK : K[s]? with
    | none =>
      rw [ih (s + 1)]
      constructor
      · rintro ⟨i, hsi, hit, hm⟩
        exact ⟨i, by omega, by omega, hm⟩
      · rintro ⟨i, hsi, hit, hm⟩
        rcases Nat.eq_or_lt_of_le hsi with rfl | hlt
        · obtain ⟨f, hf, -⟩ := hm
          rw [hK] at hf
          cases hf
        · exact ⟨i, hlt, by omega, hm⟩
    | some file =>
      by_cases hneq : jsGet c file ≠ jsGet p file
      · simp only [if_pos hneq]
        constructor
        · intro _
          exact ⟨s, Nat.le_refl s, by omega, ⟨file, hK, hneq⟩⟩
        · intro _
          trivial
      · simp only [if_neg hneq]
        push_neg at hneq
        rw [ih (s + 1)]
        constructor
        · rintro ⟨i, hsi, hit, hm⟩
          exact ⟨i, by omega, by omega, hm⟩
        · rintro ⟨i, hsi, hit, hm⟩
          rcases Nat.eq_or_lt_of_le hsi with rfl | hlt
          · obtain ⟨f, hf, hfneq⟩ := hm
            rw [hK] at hf
            cases hf
            exact absurd hneq hfneq
          · exact ⟨i, hlt, by omega, hm⟩

/-- A chunk entered with the abort flag clear signals abort exactly when
some index of its range holds a mismatch. -/
theorem checkChunk_false_iff (K : List String) (c p : Snapshot) (s t : Nat) :
    checkChunk K c p s t false = true ↔
      ∃ i, s ≤ i ∧ i < t ∧ MismatchAt K c p i := by
  unfold checkChunk
  rw [checkChunkGo_false_iff]
  constructor
  · rintro ⟨i, h1, h2, hm⟩
    exact ⟨i, h1, by omega, hm⟩
  · rintro ⟨i, h1, h2, hm⟩
    exact ⟨i, h1, by omega, hm⟩

/-- Entering a chunk with abort flag `ab` is the same as entering with the
flag clear and or-ing `ab` in. -/
theorem checkChunk_or (K : List String) (c p : Snapshot) (s t : Nat) (ab : Bool) :
    checkChunk K c p s t ab = (ab || checkChunk K c p s t false) := by
  cases ab
  · rfl
  · show checkChunk K c p s t true = _
    unfold checkChunk
    rw [checkChunkGo_true]
    simp

/-- Folding or-accumulation over a list is `any`. -/
theorem foldl_or_eq_any {α : Type} (g : α → Bool) :
    ∀ (l : List α) (ab : Bool), l.foldl (fun a x => a || g x) ab = (ab || l.any g) := by
  intro l
  induction l with
  | nil => intro ab; simp
  | cons x xs ih =>
    intro ab
    simp only [List.foldl_cons, List.any_cons, ih, Bool.or_assoc]

/-- The chunked scan is the disjunction of the per-chunk scans. -/
theorem checkChangesInChunks_eq_any (c p : Snapshot) (cs : Nat) :
    checkChangesInChunks c p cs =
      (List.range (numCursors (keys c).length cs)).any
        (fun cursor =>
          checkChunk (keys c) c p (cursor * cs)
            (min (cursor * cs + cs) (keys c).length) false) := by
  simp only [checkChangesInChunks]
  have hfun :
      (fun (aborted : Bool) (cursor : Nat) =>
          checkChunk (keys c) c p (cursor * cs)
            (min (cursor * cs + cs) (keys c).length) aborted) =
        fun (aborted : Bool) (cursor : Nat) =>
          aborted ||
            checkChunk (keys c) c p (cursor * cs)
              (min (cursor * cs + cs) (keys c).length) false := by
    funext a cur
    exact checkChunk_or _ _ _ _ _ _
  rw [hfun, foldl_or_eq_any]
  simp

/-- For a positive chunk size the chunk ranges exactly cover `[0, len)`. -/
theorem exists_cursor_iff (len cs : Nat) (hcs : 1 ≤ cs) (P : Nat → Prop) :
    (∃ cursor, cursor < numCursors len cs ∧
        ∃ i, cursor * cs ≤ i ∧ i < min (cursor * cs + cs) len ∧ P i) ↔
      ∃ i, i < len ∧ P i := by
  constructor
  · rintro ⟨cursor, -, i, -, hilt, hP⟩
    exact ⟨i, lt_of_lt_of_le hilt (min_le_right _ _), hP⟩
  · rintro ⟨i, hilen, hP⟩
    have hcs0 : 0 < cs := hcs
    refine ⟨i / cs, ?_, i, ?_, ?_, hP⟩
    · have hrw : len + cs - 1 = (len - 1) + cs := by omega
      have hdiv : ((len - 1) + cs) / cs = (len - 1) / cs + 1 :=
        Nat.add_div_right _ hcs0
      have hle : i / cs ≤ (len - 1) / cs :=
        Nat.div_le_div_right (by omega)
      unfold numCursors
      rw [hrw, hdiv]
      omega
    · exact Nat.div_mul_le_self i cs
    · have hmod := Nat.div_add_mod i cs
      have hmlt : i % cs < cs := Nat.mod_lt i hcs0
      have : i < i / cs * cs + cs := by
        calc i = cs * (i / cs) + i % cs := hmod.symm
        _ < cs * (i / cs) + cs := Nat.add_lt_add_left hmlt _
        _ = i / cs * cs + cs := by rw [Nat.mul_comm]
      exact lt_min this hilen

/-- Mismatches at indices of the key list are mismatches at keys. -/
theorem exists_mismatchAt_iff (c p : Snapshot) :
    (∃ i, i < (keys c).length ∧ MismatchAt (keys c) c p i) ↔
      ∃ k ∈ keys c, jsGet c k ≠ jsGet p k := by
  constructor
  · rintro ⟨i, hilt, f, hf, hneq⟩
    exact ⟨f, List.getElem?_mem hf, hneq⟩
  · rintro ⟨k, hk, hneq⟩
    obtain ⟨i, hilt, hEq⟩ := List.mem_iff_getElem.mp hk
    refine ⟨i, hilt, k, ?_, hneq⟩
    rw [List.getElem?_eq_getElem hilt, hEq]

/-- Main characterisation: for any positive chunk size, the chunked
concurrent comparison returns `true` exactly when some key of the current
snapshot maps to a digest different from that key's entry in the previous
snapshot (a key absent from the previous snapshot counts as different). -/
theorem checkChangesInChunks_iff (c p : Snapshot) (cs : Nat) (hcs : 1 ≤ cs) :
    checkChangesInChunks c p cs = true ↔
      ∃ k ∈ keys c, jsGet c k ≠ jsGet p k := by
  rw [checkChangesInChunks_eq_any, List.any_eq_true]
  have h1 :
      (∃ cursor ∈ List.range (numCursors (keys c).length cs),
          checkChunk (keys c) c p (cursor * cs)
            (min (cursor * cs + cs) (keys c).length) false = true) ↔
        ∃ cursor, cursor < numCursors (keys c).length cs ∧
          ∃ i, cursor * cs ≤ i ∧ i < min (cursor * cs + cs) (keys c).length ∧
            MismatchAt (keys c) c p i := by
    constructor
    · rintro ⟨cursor, hmem, hchunk⟩
      exact ⟨cursor, List.mem_range.mp hmem, (checkChunk_false_iff _ _ _ _ _).mp hchunk⟩
    · rintro ⟨cursor, hlt, hex⟩
      exact ⟨cursor, List.mem_range.mpr hlt, (checkChunk_false_iff _ _ _ _ _).mpr hex⟩
  rw [h1, exists_cursor_iff _ _ hcs, exists_mismatchAt_iff]

/-- Comparing a snapshot against itself finds no mismatch. -/
theorem checkChangesInChunks_self (c : Snapshot) (cs : Nat) (hcs : 1 ≤ cs) :
    checkChangesInChunks c c cs = false := by
  rw [← Bool.not_eq_true, checkChangesInChunks_iff c c cs hcs]
  push_neg
  intro k _
  rfl

/-- Structural lemma: the CI-bypass branch of `run`. -/
theorem run_ci_eq (inp : RunInput) (hci : inp.ci = true) :
    run inp =
      { changed := none
        trace := [Event.execCommand]
        finalStore := readHashFile inp.storeOutcome
        exit := runCommand inp.spawnOutcome } := by
  simp [run, hci]

/-- Structural lemma: the non-CI path decides `hasChangesDecision`. -/
theorem run_changed_eq (inp : RunInput) (hci : inp.ci = false) :
    (run inp).changed = some (hasChangesDecision inp) := by
  cases hd : hasChangesDecision inp
  · simp [run, hci, hd]
  · cases hsp : runCommand inp.spawnOutcome <;> simp [run, hci, hd, hsp]

/-- Structural lemma: the unchanged branch of `run`. -/
theorem run_unchanged_eq (inp : RunInput) (hci : inp.ci = false)
    (hd : hasChangesDecision inp = false) :
    run inp =
      { changed := some false
        trace := [Event.readStore, Event.computeSnapshot]
        finalStore := readHashFile inp.storeOutcome
        exit := .ok 0 } := by
  simp [run, hci, hd]

/-- Structural lemma: the changed branch of `run` with a spawned command
that closed with code `code`. -/
theorem run_changedOk_eq (inp : RunInput) (hci : inp.ci = false)
    (hd : hasChangesDecision inp = true) (code : Option Int)
    (hsp : inp.spawnOutcome = .ok code) :
    run inp =
      { changed := some true
        trace := [Event.readStore, Event.computeSnapshot, Event.execCommand,
          Event.writeStore]
        finalStore := some inp.current
        exit := .ok (code.getD 0) } := by
  simp [run, hci, hd, runCommand, hsp]

/-- Structural lemma: the changed branch of `run` with a spawn failure. -/
theorem run_changedError_eq (inp : RunInput) (hci : inp.ci = false)
    (hd : hasChangesDecision inp = true) (hsp : inp.spawnOutcome = .error ()) :
    run inp =
      { changed := some true
        trace := [Event.readStore, Event.computeSnapshot, Event.execCommand]
        finalStore := readHashFile inp.storeOutcome
        exit := .error () } := by
  simp [run, hci, hd, runCommand, hsp]

/-- Characterisation of the unchanged decision, for a positive effective
chunk size: not forced, a baseline present, equal key counts and no
digest mismatch on the current snapshot's keys. -/
theorem hasChangesDecision_false_iff (inp : RunInput)
    (hcs : 1 ≤ inp.chunkSize.getD COMPARISON_CHUNK_SIZE) :
    hasChangesDecision inp = false ↔
      inp.force = false ∧
      ∃ prev, readHashFile inp.storeOutcome = some prev ∧
        (keys inp.current).length = (keys prev).length ∧
        ∀ k ∈ keys inp.current, jsGet inp.current k = jsGet prev k := by
  unfold hasChangesDecision
  rcases hb : readHashFile inp.storeOutcome with - | prev
  · simp
  · simp only [Option.isNone_some, Bool.or_false]
    constructor
    · intro h
      have h1 : inp.force = false := by
        cases hf : inp.force
        · rfl
        · rw [hf] at h; simp at h
      have h2 :
          (decide ((keys inp.current).length ≠ (keys prev).length) ||
            checkChangesInChunks inp.current prev
              (inp.chunkSize.getD COMPARISON_CHUNK_SIZE)) = false := by
        rw [h1] at h
        simpa using h
      rw [Bool.or_eq_false_iff] at h2
      obtain ⟨h2a, h2b⟩ := h2
      have hlen : (keys inp.current).length = (keys prev).length := by
        have := of_decide_eq_false h2a
        push_neg at this
        exact this
      have hnomis : ∀ k ∈ keys inp.current, jsGet inp.current k = jsGet prev k := by
        intro k hk
        by_contra hne
        have : checkChangesInChunks inp.current prev
            (inp.chunkSize.getD COMPARISON_CHUNK_SIZE) = true :=
          (checkChangesInChunks_iff _ _ _ hcs).mpr ⟨k, hk, hne⟩
        rw [this] at h2b
        cases h2b
      exact ⟨h1, prev, rfl, hlen, hnomis⟩
    · rintro ⟨h1, prev', hprev', hlen, hnomis⟩
      cases hprev'
      rw [h1]
      have hchunk : checkChangesInChunks inp.current prev
          (inp.chunkSize.getD COMPARISON_CHUNK_SIZE) = false := by
        rw [← Bool.not_eq_true, checkChangesInChunks_iff _ _ _ hcs]
        push_neg
        exact hnomis
      simp [hchunk, hlen]

/-- Claim C1: for every current/previous hash mapping pair and every chunk
size ≥ 1, `checkChangesInChunks` returns true iff some key of the current
mapping has a digest different from that key's entry in the previous
mapping; in particular, for mappings agreeing on every current key it
returns false, and the boolean result is identical for every chunk
size ≥ 1. -/
theorem claim1_checkChangesInChunks_correct (cur prev : Snapshot) (cs : Nat)
    (hcs : 1 ≤ cs) :
    (checkChangesInChunks cur prev cs = true ↔
      ∃ k ∈ keys cur, jsGet cur k ≠ jsGet prev k) ∧
    ((∀ k ∈ keys cur, jsGet cur k = jsGet prev k) →
      checkChangesInChunks cur prev cs = false) ∧
    (∀ cs', 1 ≤ cs' →
      checkChangesInChunks cur prev cs' = checkChangesInChunks cur prev cs) := by
  refine ⟨checkChangesInChunks_iff cur prev cs hcs, ?_, ?_⟩
  · intro heq
    rw [← Bool.not_eq_true, checkChangesInChunks_iff cur prev cs hcs]
    push_neg
    exact heq
  · intro cs' hcs'
    by_cases hx : ∃ k ∈ keys cur, jsGet cur k ≠ jsGet prev k
    · rw [(checkChangesInChunks_iff cur prev cs' hcs').mpr hx,
        (checkChangesInChunks_iff cur prev cs hcs).mpr hx]
    · have b1 : checkChangesInChunks cur prev cs = false := by
        rw [← Bool.not_eq_true, checkChangesInChunks_iff cur prev cs hcs]
        exact hx
      have b2 : checkChangesInChunks cur prev cs' = false := by
        rw [← Bool.not_eq_true, checkChangesInChunks_iff cur prev cs' hcs']
        exact hx
      rw [b1, b2]

/-- Witness for claim C1: equal snapshots compare unchanged at chunk
size 2. -/
theorem claim1_witness :
    checkChangesInChunks [("a.txt", "H1"), ("b.txt", "H2")]
      [("a.txt", "H1"), ("b.txt", "H2")] 2 = false :=
  (claim1_checkChangesInChunks_correct [("a.txt", "H1"), ("b.txt", "H2")]
    [("a.txt", "H1"), ("b.txt", "H2")] 2 (by decide)).2.1 (by decide)

/-- Claim C2: with `force = false` and a present baseline, a key-count
difference between current and baseline alone makes the change decision
`changed = true`, for all digest values. -/
theorem claim2_run_countMismatch (inp : RunInput) (prev : Snapshot)
    (hci : inp.ci = false) (_hforce : inp.force = false)
    (hprev : readHashFile inp.storeOutcome = some prev)
    (hlen : (keys inp.current).length ≠ (keys prev).length) :
    (run inp).changed = some true := by
  rw [run_changed_eq inp hci]
  simp [hasChangesDecision, hprev, hlen]

/-- Witness for claim C2: baseline has two keys, current has one. -/
theorem claim2_witness :
    (run { ci := false, force := false, chunkSize := none
           storeOutcome := .ok [("a.txt", "H1"), ("b.txt", "H2")]
           current := [("a.txt", "H1")]
           spawnOutcome := .ok (some 0) }).changed = some true :=
  claim2_run_countMismatch _ [("a.txt", "H1"), ("b.txt", "H2")] rfl rfl rfl
    (by decide)

/-- Claim C3: a missing, unreadable, or unparsable store file loads as an
absent baseline rather than aborting, and an absent baseline makes the
decision `changed = true` for every current snapshot; the command runs,
the run exits with the command's outcome, and on a successful spawn the
store becomes the current snapshot. -/
theorem claim3_run_absentBaseline (inp : RunInput) (hci : inp.ci = false)
    (hb : readHashFile inp.storeOutcome = none) :
    readHashFile (Except.error ()) = none ∧
    (run inp).changed = some true ∧
    Event.execCommand ∈ (run inp).trace ∧
    (run inp).exit = runCommand inp.spawnOutcome ∧
    ∀ code, inp.spawnOutcome = .ok code → (run inp).finalStore = some inp.current := by
  have hd : hasChangesDecision inp = true := by
    simp [hasChangesDecision, hb]
  refine ⟨rfl, ?_, ?_, ?_, ?_⟩
  · rw [run_changed_eq inp hci, hd]
  · cases hsp : inp.spawnOutcome with
    | error e =>
      cases e
      rw [run_changedError_eq inp hci hd hsp]
      simp
    | ok code =>
      rw [run_changedOk_eq inp hci hd code hsp]
      simp
  · cases hsp : inp.spawnOutcome with
    | error e =>
      cases e
      rw [run_changedError_eq inp hci hd hsp]
      rfl
    | ok code =>
      rw [run_changedOk_eq inp hci hd code hsp]
      rfl
  · intro code hsp
    rw [run_changedOk_eq inp hci hd code hsp]

/-- Witness for claim C3: a failing store read with an empty current
snapshot still decides `changed = true`, and the store then becomes the
empty mapping. -/
theorem claim3_witness :
    (run { ci := false, force := false, chunkSize := none
           storeOutcome := .error (), current := []
           spawnOutcome := .ok (some 0) }).changed = some true ∧
    (run { ci := false, force := false, chunkSize := none
           storeOutcome := .error (), current := []
           spawnOutcome := .ok (some 0) }).finalStore = some [] :=
  ⟨(claim3_run_absentBaseline
      { ci := false, force := false, chunkSize := none
        storeOutcome := .error (), current := []
        spawnOutcome := .ok (some 0) } rfl rfl).2.1,
    (claim3_run_absentBaseline
      { ci := false, force := false, chunkSize := none
        storeOutcome := .error (), current := []
        spawnOutcome := .ok (some 0) } rfl rfl).2.2.2.2 (some 0) rfl⟩

/-- Claim C4: on the changed branch with a spawned command, the store
write happens after command execution and unconditionally with respect to
the exit code: the trace ends with the write, the final store equals the
just-computed current snapshot, and the run exits with the command's
code — including nonzero codes. -/
theorem claim4_run_persistsOnChanged (inp : RunInput) (code : Option Int)
    (hch : (run inp).changed = some true) (hsp : inp.spawnOutcome = .ok code) :
    (run inp).trace =
      [Event.readStore, Event.computeSnapshot, Event.execCommand, Event.writeStore] ∧
    (run inp).finalStore = some inp.current ∧
    (run inp).exit = .ok (code.getD 0) := by
  have hci : inp.ci = false := by
    cases hc : inp.ci
    · rfl
    · rw [run_ci_eq inp hc] at hch
      simp at hch
  have hd : hasChangesDecision inp = true := by
    rw [run_changed_eq inp hci] at hch
    simpa using hch.symm
  rw [run_changedOk_eq inp hci hd code hsp]
  exact ⟨rfl, rfl, rfl⟩

/-- Witness for claim C4: the command exits with nonzero code 7 and the
store is still rewritten to the current snapshot. -/
theorem claim4_witness :
    (run { ci := false, force := false, chunkSize := none
           storeOutcome := .ok [("a.txt", "H1")], current := [("a.txt", "H2")]
           spawnOutcome := .ok (some 7) }).finalStore = some [("a.txt", "H2")] ∧
    (run { ci := false, force := false, chunkSize := none
           storeOutcome := .ok [("a.txt", "H1")], current := [("a.txt", "H2")]
           spawnOutcome := .ok (some 7) }).exit = .ok 7 :=
  ⟨(claim4_run_persistsOnChanged _ (some 7) (by decide) rfl).2.1,
    (claim4_run_persistsOnChanged _ (some 7) (by decide) rfl).2.2⟩

/-- Claim C5: with `force = true` the change decision is `changed = true`
regardless of the baseline's contents, including a baseline equal to the
current snapshot. -/
theorem claim5_run_force (inp : RunInput) (hci : inp.ci = false)
    (hforce : inp.force = true) :
    (run inp).changed = some true := by
  rw [run_changed_eq inp hci]
  simp [hasChangesDecision, hforce]

/-- Witness for claim C5: the baseline equals the current snapshot exactly
and the decision is still `changed = true`. -/
theorem claim5_witness :
    (run { ci := false, force := true, chunkSize := none
           storeOutcome := .ok [("a.txt", "H1")], current := [("a.txt", "H1")]
           spawnOutcome := .ok (some 0) }).changed = some true :=
  claim5_run_force _ rfl rfl

/-- Claim C6: a run deciding `changed = false` performs no command
execution and no store write and exits successfully; and after any
completed run, a second run with the same current snapshot, the stored
baseline, `force = false` and positive chunk sizes decides
`changed = false`, executes nothing and leaves the store unchanged. -/
theorem claim6_run_skipFrame :
    (∀ inp : RunInput, (run inp).changed = some false →
      (run inp).trace = [Event.readStore, Event.computeSnapshot] ∧
      (run inp).finalStore = readHashFile inp.storeOutcome ∧
      (run inp).exit = .ok 0) ∧
    (∀ inp1 inp2 : RunInput, inp1.ci = false →
      1 ≤ inp1.chunkSize.getD COMPARISON_CHUNK_SIZE →
      (∃ c, (run inp1).exit = .ok c) →
      inp2.ci = false → inp2.force = false →
      1 ≤ inp2.chunkSize.getD COMPARISON_CHUNK_SIZE →
      inp2.current = inp1.current →
      readHashFile inp2.storeOutcome = (run inp1).finalStore →
      (run inp2).changed = some false ∧
      Event.execCommand ∉ (run inp2).trace ∧
      Event.writeStore ∉ (run inp2).trace ∧
      (run inp2).finalStore = (run inp1).finalStore) := by
  have partA : ∀ inp : RunInput, (run inp).changed = some false →
      (run inp).trace = [Event.readStore, Event.computeSnapshot] ∧
      (run inp).finalStore = readHashFile inp.storeOutcome ∧
      (run inp).exit = .ok 0 := by
    intro inp hch
    have hci : inp.ci = false := by
      cases hc : inp.ci
      · rfl
      · rw [run_ci_eq inp hc] at hch
        simp at hch
    have hd : hasChangesDecision inp = false := by
      rw [run_changed_eq inp hci] at hch
      simpa using hch.symm
    rw [run_unchanged_eq inp hci hd]
    exact ⟨rfl, rfl, rfl⟩
  refine ⟨partA, ?_⟩
  intro inp1 inp2 hci1 hcs1 hok1 hci2 hforce2 hcs2 hsame hload
  have hd2 : hasChangesDecision inp2 = false := by
    cases hd1 : hasChangesDecision inp1 with
    | false =>
      obtain ⟨hforce1, prev, hprev1, hlen1, hnomis1⟩ :=
        (hasChangesDecision_false_iff inp1 hcs1).mp hd1
      have hfs1 : (run inp1).finalStore = some prev := by
        rw [run_unchanged_eq inp1 hci1 hd1, hprev1]
      rw [hasChangesDecision_false_iff inp2 hcs2]
      refine ⟨hforce2, prev, ?_, ?_, ?_⟩
      · rw [hload, hfs1]
      · rw [hsame]; exact hlen1
      · rw [hsame]; exact hnomis1
    | true =>
      obtain ⟨c, hexit1⟩ := hok1
      cases hsp1 : inp1.spawnOutcome with
      | error e =>
        cases e
        rw [run_changedError_eq inp1 hci1 hd1 hsp1] at hexit1
        cases hexit1
      | ok code =>
        have hfs1 : (run inp1).finalStore = some inp1.current := by
          rw [run_changedOk_eq inp1 hci1 hd1 code hsp1]
        rw [hasChangesDecision_false_iff inp2 hcs2]
        refine ⟨hforce2, inp1.current, ?_, ?_, ?_⟩
        · rw [hload, hfs1]
        · rw [hsame]
        · rw [hsame]
          intro k _
          rfl
  have h2 := run_unchanged_eq inp2 hci2 hd2
  refine ⟨?_, ?_, ?_, ?_⟩
  · rw [run_changed_eq inp2 hci2, hd2]
  · rw [h2]; simp
  · rw [h2]; simp
  · rw [h2, hload]

/-- Witness for claim C6: after a changed run persisted the snapshot, a
second run with the same files decides `changed = false`. -/
theorem claim6_witness :
    (run { ci := false, force := false, chunkSize := some 1
           storeOutcome := .ok [("a.txt", "H2")], current := [("a.txt", "H2")]
           spawnOutcome := .ok (some 0) }).changed = some false :=
  (claim6_run_skipFrame.2
    { ci := false, force := false, chunkSize := some 1
      storeOutcome := .ok [("a.txt", "H1")], current := [("a.txt", "H2")]
      spawnOutcome := .ok (some 0) }
    { ci := false, force := false, chunkSize := some 1
      storeOutcome := .ok [("a.txt", "H2")], current := [("a.txt", "H2")]
      spawnOutcome := .ok (some 0) }
    rfl (by decide) ⟨0, rfl⟩ rfl rfl (by decide) rfl (by decide)).1

/-- Claim C7: with the continuous-integration indicator set, the run is
exactly an unconditional command execution: the trace holds a single
command event (the store is neither read nor written and no snapshot is
computed), no decision is made, the store is untouched, and the run exits
with the command's outcome. -/
theorem claim7_run_ciBypass (inp : RunInput) (hci : inp.ci = true) :
    (run inp).trace = [Event.execCommand] ∧
    (run inp).changed = none ∧
    (run inp).finalStore = readHashFile inp.storeOutcome ∧
    (run inp).exit = runCommand inp.spawnOutcome := by
  rw [run_ci_eq inp hci]
  exact ⟨rfl, rfl, rfl, rfl⟩

/-- Witness for claim C7: CI bypass runs the command even though the
current snapshot equals the baseline exactly, and the store is
untouched. -/
theorem claim7_witness :
    (run { ci := true, force := false, chunkSize := none
           storeOutcome := .ok [("a.txt", "H1")], current := [("a.txt", "H1")]
           spawnOutcome := .ok (some 5) }).trace = [Event.execCommand] ∧
    (run { ci := true, force := false, chunkSize := none
           storeOutcome := .ok [("a.txt", "H1")], current := [("a.txt", "H1")]
           spawnOutcome := .ok (some 5) }).exit = .ok 5 :=
  ⟨(claim7_run_ciBypass _ rfl).1, (claim7_run_ciBypass _ rfl).2.2.2⟩

/-- Claim C8: when the command was attempted but could not be spawned, the
run aborts with a fatal error, the store is not written, and the store
retains its pre-run content. -/
theorem claim8_run_spawnError (inp : RunInput)
    (hsp : inp.spawnOutcome = .error ())
    (hexec : Event.execCommand ∈ (run inp).trace) :
    (run inp).exit = .error () ∧
    Event.writeStore ∉ (run inp).trace ∧
    (run inp).finalStore = readHashFile inp.storeOutcome := by
  cases hci : inp.ci with
  | false =>
    cases hd : hasChangesDecision inp with
    | false =>
      rw [run_unchanged_eq inp hci hd] at hexec
      simp at hexec
    | true =>
      rw [run_changedError_eq inp hci hd hsp]
      refine ⟨rfl, ?_, rfl⟩
      simp
  | true =>
    rw [run_ci_eq inp hci]
    refine ⟨?_, ?_, rfl⟩
    · rw [hsp]
      rfl
    · simp

/-- Witness for claim C8: a forced run whose command cannot be spawned
aborts with an error and leaves the store as it was. -/
theorem claim8_witness :
    (run { ci := false, force := true, chunkSize := none
           storeOutcome := .ok [("a.txt", "H1")], current := [("a.txt", "H2")]
           spawnOutcome := .error () }).exit = .error () ∧
    (run { ci := false, force := true, chunkSize := none
           storeOutcome := .ok [("a.txt", "H1")], current := [("a.txt", "H2")]
           spawnOutcome := .error () }).finalStore = some [("a.txt", "H1")] :=
  ⟨(claim8_run_spawnError _ rfl (by decide)).1,
    (claim8_run_spawnError _ rfl (by decide)).2.2⟩

/-- Claim C9: for every successfully spawned command the executor resolves
with the process's exit code, and a close without a conventional exit code
(`null`) is observed as `0`. -/
theorem claim9_runCommand_exitCode :
    (∀ code : Option Int, runCommand (.ok code) = .ok (code.getD 0)) ∧
    (∀ c : Int, runCommand (.ok (some c)) = .ok c) ∧
    runCommand (.ok none) = .ok 0 :=
  ⟨fun _ => rfl, fun _ => rfl, rfl⟩

/-- Claim C10: the chunked comparison inspects only the keys of the
current mapping: it returns false whenever every current key has an equal
digest in the previous mapping — extra keys in the previous mapping are
never examined — and its result is unchanged under any modification of
the previous mapping that preserves the digests at the current keys. -/
theorem claim10_checkChangesInChunks_currentKeysOnly (cur prev : Snapshot)
    (cs : Nat) (hcs : 1 ≤ cs) :
    ((∀ k ∈ keys cur, jsGet cur k = jsGet prev k) →
      checkChangesInChunks cur prev cs = false) ∧
    (∀ prev' : Snapshot, (∀ k ∈ keys cur, jsGet prev' k = jsGet prev k) →
      checkChangesInChunks cur prev' cs = checkChangesInChunks cur prev cs) := by
  constructor
  · intro heq
    rw [← Bool.not_eq_true, checkChangesInChunks_iff cur prev cs hcs]
    push_neg
    exact heq
  · intro prev' hagree
    by_cases hx : ∃ k ∈ keys cur, jsGet cur k ≠ jsGet prev k
    · obtain ⟨k, hk, hne⟩ := hx
      rw [(checkChangesInChunks_iff cur prev cs hcs).mpr ⟨k, hk, hne⟩,
        (checkChangesInChunks_iff cur prev' cs hcs).mpr
          ⟨k, hk, by rw [hagree k hk]; exact hne⟩]
    · push_neg at hx
      have b1 : checkChangesInChunks cur prev cs = false := by
        rw [← Bool.not_eq_true, checkChangesInChunks_iff cur prev cs hcs]
        push_neg
        exact hx
      have b2 : checkChangesInChunks cur prev' cs = false := by
        rw [← Bool.not_eq_true, checkChangesInChunks_iff cur prev' cs hcs]
        push_neg
        intro k hk
        rw [hagree k hk]
        exact hx k hk
      rw [b1, b2]

/-- Witness for claim C10: a previous mapping with an extra key still
compares unchanged when the current keys agree. -/
theorem claim10_witness :
    checkChangesInChunks [("a.txt", "H1")]
      [("a.txt", "H1"), ("b.txt", "H2")] 1 = false :=
  (claim10_checkChangesInChunks_currentKeysOnly [("a.txt", "H1")]
    [("a.txt", "H1"), ("b.txt", "H2")] 1 (by decide)).1 (by decide)

end HashRunner
